import Mathlib

set_option maxRecDepth 100000

/-!
Verification of the QR-code service core against its specification.

The TypeScript sources are embedded shallowly:

* JavaScript strings are modelled as `List Char`; the handful of string
  operations the code uses (`split(':')`, `replace` with a literal first
  occurrence, global regex replacement for the two concrete patterns the
  renderer uses, `trim`) are defined below with JS semantics.
* Byte sequences are `List Nat` with values understood mod 256, and 32-bit
  words are `Nat` with explicit `% 2 ^ 32` where overflow matters.
* `crypto.createHash('sha256')` is modelled by a full executable SHA-256
  over UTF-8 encoded bytes.
* `crypto.randomBytes` / `Math.random` are modelled as injected random
  sources (an explicit byte list, resp. an index stream), following the
  spec's injected-randomness design note.
* JavaScript numbers are modelled as `ℚ` where the code only performs
  exact arithmetic (logo geometry) and as `ℝ` where it uses `Math.pow`
  (WCAG luminance); the latter definitions are `noncomputable` because
  real numbers are, while every parsing/branching step stays executable.
-/

/-! ### JS string model: basic scanners -/

/-- JS `s.split(':')`: splits into the (always nonempty) list of
colon-free segments, keeping empty segments like JS does. -/
def splitColon : List Char → List (List Char)
  | [] => [[]]
  | c :: rest =>
    if c = ':' then [] :: splitColon rest
    else
      match splitColon rest with
      | [] => [[c]]
      | p :: ps => (c :: p) :: ps

/-- Match a literal pattern at the head of a string; return the rest on
success.  This is the matcher JS uses for `String.replace` with a string
pattern and for the renderer's meta-character-free regex literals. -/
def matchLit : List Char → List Char → Option (List Char)
  | [], s => some s
  | _ :: _, [] => none
  | c :: cs, d :: ds => if c = d then matchLit cs ds else none

/-- Does the literal pattern occur anywhere in the string? -/
def containsSub (pat : List Char) : List Char → Bool
  | [] => (matchLit pat []).isSome
  | c :: rest => (matchLit pat (c :: rest)).isSome || containsSub pat rest

/-- Fuel-indexed scanner for global literal replacement (`//g` on a
pattern without metacharacters).  The fuel is the string length, which is
always sufficient because every step consumes at least one character. -/
def replaceScan (pat rep : List Char) : Nat → List Char → List Char
  | 0, s => s
  | _ + 1, [] => []
  | fuel + 1, c :: rest =>
    match matchLit pat (c :: rest) with
    | some after => rep ++ replaceScan pat rep fuel after
    | none => c :: replaceScan pat rep fuel rest

/-- JS `s.replace(/pat/g, rep)` for a literal pattern. -/
def replaceAll (pat rep s : List Char) : List Char :=
  replaceScan pat rep s.length s

/-- Fuel-indexed scanner replacing only the first occurrence. -/
def firstScan (pat rep : List Char) : Nat → List Char → List Char
  | 0, s => s
  | _ + 1, [] => []
  | fuel + 1, c :: rest =>
    match matchLit pat (c :: rest) with
    | some after => rep ++ after
    | none => c :: firstScan pat rep fuel rest

/-- JS `s.replace(pat, rep)` with a string pattern: first occurrence only. -/
def replaceFirst (pat rep s : List Char) : List Char :=
  firstScan pat rep s.length s

/-- Whitespace characters relevant to the template literals in the code. -/
def isJsSpace (c : Char) : Bool :=
  c = ' ' || c = '\n' || c = '\t' || c = '\r'

/-- JS `s.trim()`. -/
def jsTrim (s : List Char) : List Char :=
  ((s.dropWhile isJsSpace).reverse.dropWhile isJsSpace).reverse

/-- Short-circuiting string equality: the comparison `===` performs on the
character sequence, stopping at the first difference. -/
def strEq : List Char → List Char → Bool
  | [], [] => true
  | [], _ :: _ => false
  | _ :: _, [] => false
  | a :: as, b :: bs => if a = b then strEq as bs else false

/-- Cost model for `strEq`: the number of character comparisons performed
before the comparison short-circuits (or both strings end). -/
def strEqSteps : List Char → List Char → Nat
  | [], _ => 0
  | _ :: _, [] => 0
  | a :: as, b :: bs => 1 + if a = b then strEqSteps as bs else 0

/-! ### Bytes, hex, UTF-8 -/

/-- The sixteen lowercase hex digits, as produced by Node's
`Buffer.toString('hex')` and `Hash.digest('hex')`. -/
def hexChars : List Char := "0123456789abcdef".toList

/-- One hex digit character for a nibble value. -/
def hexDigitChar (n : Nat) : Char := hexChars.getD n '0'

/-- Lowercase hex encoding of a byte list (bytes understood mod 256, the
high nibble carrying the explicit reduction). -/
def hexBytes : List Nat → List Char
  | [] => []
  | b :: bs => hexDigitChar (b / 16 % 16) :: hexDigitChar (b % 16) :: hexBytes bs

/-- UTF-8 bytes of one character (Node hashes strings as UTF-8). -/
def utf8Char (c : Char) : List Nat :=
  let n := c.toNat
  if n < 128 then [n]
  else if n < 2048 then [192 + n / 64, 128 + n % 64]
  else if n < 65536 then [224 + n / 4096, 128 + n / 64 % 64, 128 + n % 64]
  else [240 + n / 262144, 128 + n / 4096 % 64, 128 + n / 64 % 64, 128 + n % 64]

/-- UTF-8 encoding of a JS string. -/
def utf8Encode (s : List Char) : List Nat := s.flatMap utf8Char

/-! ### SHA-256 (FIPS 180-4), executable over `Nat` with explicit mod -/

/-- Reduce to a 32-bit word. -/
def w32 (x : Nat) : Nat := x % 4294967296

/-- Right rotation of a 32-bit word. -/
def rotr32 (n x : Nat) : Nat := x / 2 ^ n + x % 2 ^ n * 2 ^ (32 - n)

/-- Bitwise complement of a 32-bit word. -/
def not32 (x : Nat) : Nat := x ^^^ 4294967295

def sha256Ch (x y z : Nat) : Nat := (x &&& y) ^^^ (not32 x &&& z)

def sha256Maj (x y z : Nat) : Nat := (x &&& y) ^^^ (x &&& z) ^^^ (y &&& z)

def bigSigma0 (x : Nat) : Nat := rotr32 2 x ^^^ rotr32 13 x ^^^ rotr32 22 x

def bigSigma1 (x : Nat) : Nat := rotr32 6 x ^^^ rotr32 11 x ^^^ rotr32 25 x

def smallSigma0 (x : Nat) : Nat := rotr32 7 x ^^^ rotr32 18 x ^^^ (x >>> 3)

def smallSigma1 (x : Nat) : Nat := rotr32 17 x ^^^ rotr32 19 x ^^^ (x >>> 10)

/-- The 64 SHA-256 round constants. -/
def sha256K : List Nat :=
  [1116352408, 1899447441, 3049323471, 3921009573, 961987163,
   1508970993, 2453635748, 2870763221, 3624381080, 310598401,
   607225278, 1426881987, 1925078388, 2162078206, 2614888103,
   3248222580, 3835390401, 4022224774, 264347078, 604807628,
   770255983, 1249150122, 1555081692, 1996064986, 2554220882,
   2821834349, 2952996808, 3210313671, 3336571891, 3584528711,
   113926993, 338241895, 666307205, 773529912, 1294757372,
   1396182291, 1695183700, 1986661051, 2177026350, 2456956037,
   2730485921, 2820302411, 3259730800, 3345764771, 3516065817,
   3600352804, 4094571909, 275423344, 430227734, 506948616,
   659060556, 883997877, 958139571, 1322822218, 1537002063,
   1747873779, 1955562222, 2024104815, 2227730452, 2361852424,
   2428436474, 2756734187, 3204031479, 3329325298]

/-- The SHA-256 initial hash value. -/
def sha256H0 : List Nat :=
  [1779033703, 3144134277, 1013904242, 2773480762,
   1359893119, 2600822924, 528734635, 1541459225]

/-- Group bytes into big-endian 32-bit words. -/
def bytesToWords : List Nat → List Nat
  | b0 :: b1 :: b2 :: b3 :: rest =>
    (b0 % 256 * 16777216 + b1 % 256 * 65536 + b2 % 256 * 256 + b3 % 256)
      :: bytesToWords rest
  | _ => []

/-- One message-schedule extension step: append word `i` from words
`i-2`, `i-7`, `i-15`, `i-16`. -/
def extendStep (w : List Nat) : List Nat :=
  let i := w.length
  w ++ [w32 (smallSigma1 (w.getD (i - 2) 0) + w.getD (i - 7) 0 +
             smallSigma0 (w.getD (i - 15) 0) + w.getD (i - 16) 0)]

/-- Iterate the schedule extension. -/
def scheduleExtend : Nat → List Nat → List Nat
  | 0, w => w
  | n + 1, w => scheduleExtend n (extendStep w)

/-- One compression round on the 8-word working state. -/
def compressRound (st : List Nat) (kw : Nat × Nat) : List Nat :=
  let a := st.getD 0 0
  let b := st.getD 1 0
  let c := st.getD 2 0
  let d := st.getD 3 0
  let e := st.getD 4 0
  let f := st.getD 5 0
  let g := st.getD 6 0
  let h := st.getD 7 0
  let t1 := w32 (h + bigSigma1 e + sha256Ch e f g + kw.1 + kw.2)
  let t2 := w32 (bigSigma0 a + sha256Maj a b c)
  [w32 (t1 + t2), a, b, c, w32 (d + t1), e, f, g]

/-- Compress one 64-byte chunk into the running hash value. -/
def compressChunk (h : List Nat) (chunk : List Nat) : List Nat :=
  let ws := scheduleExtend 48 (bytesToWords chunk)
  let fin := (sha256K.zip ws).foldl compressRound h
  (h.zip fin).map (fun p => w32 (p.1 + p.2))

/-- Split the padded message into 64-byte chunks. -/
def splitChunks : List Nat → List (List Nat)
  | [] => []
  | c :: rest => ((c :: rest).take 64) :: splitChunks ((c :: rest).drop 64)
termination_by l => l.length
decreasing_by simp [List.length_drop]; omega

/-- SHA-256 padding: `0x80`, zeros to 56 mod 64, 64-bit big-endian bit length. -/
def padMessage (msg : List Nat) : List Nat :=
  let len := msg.length
  let zeros := (119 - len % 64) % 64
  let bitLen := len * 8
  msg ++ [128] ++ List.replicate zeros 0 ++
    [bitLen / 2 ^ 56 % 256, bitLen / 2 ^ 48 % 256, bitLen / 2 ^ 40 % 256,
     bitLen / 2 ^ 32 % 256, bitLen / 2 ^ 24 % 256, bitLen / 2 ^ 16 % 256,
     bitLen / 2 ^ 8 % 256, bitLen % 256]

/-- Big-endian bytes of a 32-bit word. -/
def wordBytes (w : Nat) : List Nat :=
  [w / 16777216 % 256, w / 65536 % 256, w / 256 % 256, w % 256]

/-- SHA-256 digest (32 bytes) of a byte message. -/
def sha256 (msg : List Nat) : List Nat :=
  let hs := (splitChunks (padMessage msg)).foldl compressChunk sha256H0
  hs.flatMap wordBytes

/-- Lowercase hex digest of the SHA-256 of a JS string, i.e.
`createHash('sha256').update(s).digest('hex')`. -/
def sha256Hex (s : List Char) : List Char := hexBytes (sha256 (utf8Encode s))

/-! ### TokenManager (src/backend/src/utils/crypto.ts) -/

/-- `hashEditToken(token)` from the source: draw a fresh 16-byte salt,
hex-encode it, and return `"<salt-hex>:" + sha256Hex(saltHex + token)`.
The salt drawn by `crypto.randomBytes(16)` is passed explicitly as the
injected random source's output. -/
def hashEditToken (saltBytes : List Nat) (token : List Char) : List Char :=
  let salt := hexBytes saltBytes
  salt ++ ':' :: sha256Hex (salt ++ token)

/-- `verifyEditToken(token, hashedToken)` from the source: split the
stored string on `':'`, take the first two parts as `salt` and `hash`
(a missing or empty part is falsy and fails closed), recompute
`sha256Hex(salt + token)` and compare with `===` (modelled by the
short-circuiting `strEq`). -/
def verifyEditToken (token stored : List Char) : Bool :=
  let parts := splitColon stored
  let salt := parts.getD 0 []
  let hv := parts.getD 1 []
  if salt.isEmpty || hv.isEmpty then false
  else strEq (sha256Hex (salt ++ token)) hv

/-- Comparison-cost model of `verifyEditToken`: the number of character
comparisons the final `===` performs (0 when the parse fails closed
before comparing).  The control flow mirrors `verifyEditToken` exactly. -/
def verifyEditTokenSteps (token stored : List Char) : Nat :=
  let parts := splitColon stored
  let salt := parts.getD 0 []
  let hv := parts.getD 1 []
  if salt.isEmpty || hv.isEmpty then 0
  else strEqSteps (sha256Hex (salt ++ token)) hv

/-- The 62-character slug alphabet from `generateSlug`. -/
def slugAlphabet : List Char :=
  "ABCDEFGHIJKLMNOPQRSTUVWXYZabcdefghijklmnopqrstuvwxyz0123456789".toList

/-- `generateSlug()` from the source: nine draws of
`chars.charAt(Math.floor(Math.random() * chars.length))`.  The random
source is injected as a stream `rand`; draw `i` selects alphabet index
`rand i % 62`, the modulus making the codomain of
`Math.floor(Math.random() * 62)` explicit. -/
def generateSlug (rand : Nat → Nat) : List Char :=
  (List.range 9).map (fun i => slugAlphabet.getD (rand i % 62) 'A')

/-- Outcome of the slug step of the `POST /api/qrcodes` handler.  The
handler draws exactly one candidate with `generateSlug()` and inserts it;
a collision with an already-issued slug makes the insert fail, which the
handler's catch-all turns into a generic 500 response.  There is no
retry branch and no `SlugAllocationError` constructor anywhere in the
code, so the outcome type has none. -/
inductive CreateOutcome
  | created (slug : List Char)
  | internalError
deriving DecidableEq

/-- The slug-allocation step of the creation handler
(src/backend/src/routes/qrcodes.ts, `POST /api/qrcodes`): one call to
`generateSlug`, no uniqueness check before the insert, generic failure on
collision with the `existing` slugs held by the storage collaborator. -/
def createQRSlug (rand : Nat → Nat) (existing : List (List Char)) : CreateOutcome :=
  let slug := generateSlug rand
  if slug ∈ existing then .internalError else .created slug

/-! ### Renderer string transforms (QRService, src/unnamed/part_006) -/

/-- Gradient options (`options.gradient`). -/
structure Gradient where
  gFrom : List Char
  gTo : List Char

/-- The template literal `gradientDef` from `applyGradient`, with its
exact whitespace. -/
def gradientDefStr (g : Gradient) : List Char :=
  "\n      <defs>\n        <linearGradient id=\"qrGradient\" x1=\"0%\" y1=\"0%\" x2=\"100%\" y2=\"100%\">\n          <stop offset=\"0%\" style=\"stop-color:".toList
    ++ g.gFrom
    ++ ";stop-opacity:1\" />\n          <stop offset=\"100%\" style=\"stop-color:".toList
    ++ g.gTo
    ++ ";stop-opacity:1\" />\n        </linearGradient>\n      </defs>\n    ".toList

/-- The pattern `fill="#000000"` (double quotes). -/
def fillBlackDq : List Char := "fill=\"#000000\"".toList

/-- The replacement `fill="url(#qrGradient)"` (double quotes). -/
def urlFillDq : List Char := "fill=\"url(#qrGradient)\"".toList

/-- The pattern with single quotes, built from the quote character. -/
def fillBlackSq : List Char := "fill=".toList ++ '\'' :: "#000000".toList ++ ['\'']

/-- The single-quoted replacement. -/
def urlFillSq : List Char := "fill=".toList ++ '\'' :: "url(#qrGradient)".toList ++ ['\'']

/-- The first stage of `applyGradient`:
`svg.replace('<svg', `<svg ${gradientDef.replace('<defs', '').replace('</defs>', '').trim()}`)`. -/
def injectDefs (g : Gradient) (svg : List Char) : List Char :=
  let defsStr :=
    jsTrim (replaceFirst "</defs>".toList []
      (replaceFirst "<defs".toList [] (gradientDefStr g)))
  replaceFirst "<svg".toList ("<svg ".toList ++ defsStr) svg

/-- `QRService.applyGradient`: inject the gradient definition, then
globally rewrite the two literal black-fill patterns to gradient
references. -/
def applyGradient (g : Gradient) (svg : List Char) : List Char :=
  replaceAll fillBlackSq urlFillSq
    (replaceAll fillBlackDq urlFillDq (injectDefs g svg))

/-- The literal prefix `rect width="` of the rounding regex. -/
def rectLit1 : List Char := "rect width=\"".toList

/-- The middle literal `" height="` of the rounding regex. -/
def rectLit2 : List Char := "\" height=\"".toList

/-- Take a maximal nonempty run of ASCII digits (`[0-9]+`). -/
def takeDigits1 (s : List Char) : Option (List Char × List Char) :=
  let ds := s.takeWhile (·.isDigit)
  if ds.isEmpty then none else some (ds, s.drop ds.length)

/-- Match the regex `rect width="([0-9]+)" height="([0-9]+)"` at the head
of the string, returning the matched text and the rest. -/
def matchRectPat (s : List Char) : Option (List Char × List Char) :=
  match matchLit rectLit1 s with
  | none => none
  | some s1 =>
    match takeDigits1 s1 with
    | none => none
    | some (d1, s2) =>
      match matchLit rectLit2 s2 with
      | none => none
      | some s3 =>
        match takeDigits1 s3 with
        | none => none
        | some (d2, s4) =>
          match matchLit ['"'] s4 with
          | none => none
          | some s5 =>
            some (rectLit1 ++ d1 ++ rectLit2 ++ d2 ++ ['"'], s5)

/-- The text the replacement appends after each match:
`'rect width="$1" height="$2" rx="2" ry="2"'` restores the match and adds
the rounding attributes. -/
def roundedAttr : List Char := " rx=\"2\" ry=\"2\"".toList

/-- Fuel-indexed global scanner for the rounding rewrite. -/
def roundedScan : Nat → List Char → List Char
  | 0, s => s
  | _ + 1, [] => []
  | fuel + 1, c :: rest =>
    match matchRectPat (c :: rest) with
    | some (m, after) => m ++ roundedAttr ++ roundedScan fuel after
    | none => c :: roundedScan fuel rest

/-- `QRService.applyRoundedCorners`: the global replacement
`svg.replace(/rect width="([0-9]+)" height="([0-9]+)"/g, 'rect width="$1" height="$2" rx="2" ry="2"')`.
It receives only the serialized markup: no module-grid or region
information reaches it. -/
def applyRoundedCorners (svg : List Char) : List Char :=
  roundedScan svg.length svg

/-! ### Compositor geometry (QRService.compositeLogo / fetchLogo) -/

/-- `options.logoScale || 0.2`: `undefined` and `0` are falsy and fall
back to the default `0.2`. -/
def logoScaleEffective (ls : Option ℚ) : ℚ :=
  match ls with
  | none => 1 / 5
  | some q => if q = 0 then 1 / 5 else q

/-- `Math.floor(options.size * (options.logoScale || 0.2))`. -/
def logoSizeOf (size : Nat) (ls : Option ℚ) : ℤ :=
  ⌊(size : ℚ) * logoScaleEffective ls⌋

/-- `top: Math.floor((options.size - logoSize) / 2)`. -/
def logoTopOf (size : Nat) (ls : Option ℚ) : ℤ :=
  ⌊((size : ℚ) - (logoSizeOf size ls : ℚ)) / 2⌋

/-- `left: Math.floor((options.size - logoSize) / 2)` (the source repeats
the same expression). -/
def logoLeftOf (size : Nat) (ls : Option ℚ) : ℤ :=
  ⌊((size : ℚ) - (logoSizeOf size ls : ℚ)) / 2⌋

/-- The `fetchLogo` resize target: `.resize(size, size, { fit: 'inside',
background: transparent })` — a square of the computed logo edge. -/
def fetchLogoResizeTarget (logoSize : ℤ) : ℤ × ℤ := (logoSize, logoSize)

/-- Kinds of composite layers relevant to the bezel claim: the fetched
logo image, or a solid-background bezel rectangle (the layer the spec
requires behind the logo). -/
inductive LayerInput
  | logoImage
  | solidBezel
deriving DecidableEq

/-- One entry of the `sharp(...).composite([...])` layer list. -/
structure CompositeLayer where
  input : LayerInput
  top : ℤ
  left : ℤ
deriving DecidableEq

/-- The composite layer list built by `QRService.compositeLogo`: the
source passes `composite([{ input: logoBuffer, top, left }])` — a single
layer holding the fetched logo, and nothing else. -/
def compositeLogoLayers (size : Nat) (ls : Option ℚ) : List CompositeLayer :=
  [⟨.logoImage, logoTopOf size ls, logoLeftOf size ls⟩]

/-! ### ContrastValidator (QRService.validateContrast) -/

/-- ASCII hex-digit test, case-insensitive (`[a-f\d]` with the `i` flag). -/
def isHexDig (c : Char) : Bool :=
  ('0' ≤ c && c ≤ '9') || ('a' ≤ c && c ≤ 'f') || ('A' ≤ c && c ≤ 'F')

/-- Value of a hex digit (`parseInt(_, 16)` on a single digit). -/
def hexDigVal (c : Char) : Nat :=
  if '0' ≤ c && c ≤ '9' then c.toNat - '0'.toNat
  else if 'a' ≤ c && c ≤ 'f' then c.toNat - 'a'.toNat + 10
  else if 'A' ≤ c && c ≤ 'F' then c.toNat - 'A'.toNat + 10
  else 0

/-- The optional leading `#` of the regex `^#?…$`. -/
def stripHash : List Char → List Char
  | '#' :: rest => rest
  | s => s

/-- The `rgb` helper inside `validateContrast`: the anchored regex
`/^#?([a-f\d]{2})([a-f\d]{2})([a-f\d]{2})$/i` followed by
`parseInt(_, 16)` on each captured pair; `null` when the regex fails. -/
def rgb (s : List Char) : Option (Nat × Nat × Nat) :=
  match stripHash s with
  | [c1, c2, c3, c4, c5, c6] =>
    if isHexDig c1 && isHexDig c2 && isHexDig c3 && isHexDig c4 &&
       isHexDig c5 && isHexDig c6 then
      some (hexDigVal c1 * 16 + hexDigVal c2,
            hexDigVal c3 * 16 + hexDigVal c4,
            hexDigVal c5 * 16 + hexDigVal c6)
    else none
  | _ => none

/-- Decidable form of the input shape `validateContrast` accepts: an
optional `#` followed by exactly six hexadecimal digits. -/
def matchesHexColor (s : List Char) : Bool :=
  (stripHash s).length = 6 && (stripHash s).all isHexDig

open Real in
/-- The sRGB-to-linear channel transform from the source:
`val <= 0.03928 ? val / 12.92 : Math.pow((val + 0.055) / 1.055, 2.4)`
after `val = val / 255`.  JS numbers are modelled by `ℝ`. -/
noncomputable def srgbChannel (v : Nat) : ℝ :=
  let x : ℝ := v / 255
  if x ≤ 0.03928 then x / 12.92 else ((x + 0.055) / 1.055) ^ (2.4 : ℝ)

/-- WCAG relative luminance `0.2126 r + 0.7152 g + 0.0722 b`. -/
noncomputable def luminance (c : Nat × Nat × Nat) : ℝ :=
  0.2126 * srgbChannel c.1 + 0.7152 * srgbChannel c.2.1 + 0.0722 * srgbChannel c.2.2

/-- Result record of `validateContrast`: the boolean verdict (as a
proposition over the real ratio) and the optional numeric ratio, which is
absent exactly when a color fails to parse. -/
structure ContrastResult where
  valid : Prop
  ratioVal : Option ℝ

/-- `QRService.validateContrast`: parse both colors (failing closed with
`{ valid: false }`), compute the luminances, the WCAG ratio
`(max + 0.05) / (min + 0.05)`, and the verdict `ratio >= 4.5`. -/
noncomputable def validateContrast (color background : List Char) : ContrastResult :=
  match rgb color, rgb background with
  | some c1, some c2 =>
    let l1 := luminance c1
    let l2 := luminance c2
    let r := (max l1 l2 + 0.05) / (min l1 l2 + 0.05)
    ⟨4.5 ≤ r, some r⟩
  | _, _ => ⟨False, none⟩

/-! ### Exporter dispatch (GET /api/qrcodes/:id/export) -/

/-- Reply shape of the export handler's format dispatch: a successful
generation with a declared content type, or a client-error response. -/
inductive ExportReply
  | ok (contentType : List Char)
  | clientError (status : Nat) (msg : List Char)
deriving DecidableEq

/-- The `switch (format)` of the export handler: each recognized format
selects the matching generator and content type; anything else returns
the 400 response (never a crash). -/
def exportDispatch (format : List Char) : ExportReply :=
  if format = "svg".toList then .ok "image/svg+xml".toList
  else if format = "png".toList then .ok "image/png".toList
  else if format = "jpeg".toList then .ok "image/jpeg".toList
  else .clientError 400 "Invalid format. Use png, jpeg, or svg.".toList

/-! ### Helper lemmas: split, hex, digest shape -/

lemma splitColon_ne_nil (s : List Char) : splitColon s ≠ [] := by
  induction s with
  | nil => simp [splitColon]
  | cons c rest ih =>
    simp only [splitColon]
    split
    · simp
    · cases h : splitColon rest with
      | nil => simp
      | cons p ps => simp

lemma splitColon_eq_single (s : List Char) (h : ∀ c ∈ s, c ≠ ':') :
    splitColon s = [s] := by
  induction s with
  | nil => rfl
  | cons c rest ih =>
    have hc : c ≠ ':' := h c (by simp)
    have hr := ih (fun d hd => h d (by simp [hd]))
    simp [splitColon, hc, hr]

lemma splitColon_append (a b : List Char) (h : ∀ c ∈ a, c ≠ ':') :
    splitColon (a ++ ':' :: b) = a :: splitColon b := by
  induction a with
  | nil => simp [splitColon]
  | cons c rest ih =>
    have hc : c ≠ ':' := h c (by simp)
    have hr := ih (fun d hd => h d (by simp [hd]))
    simp [splitColon, hc, hr]

lemma hexDigitChar_mem (n : Nat) : hexDigitChar n ∈ hexChars := by
  by_cases h : n < hexChars.length
  · rw [hexDigitChar, List.getD_eq_getElem _ _ h]
    exact List.getElem_mem _
  · rw [hexDigitChar, List.getD_eq_default _ _ (le_of_not_lt h)]
    decide

lemma mem_hexBytes (bs : List Nat) (c : Char) (h : c ∈ hexBytes bs) :
    c ∈ hexChars := by
  induction bs with
  | nil => simp [hexBytes] at h
  | cons b bs ih =>
    simp only [hexBytes, List.mem_cons] at h
    rcases h with h | h | h
    · rw [h]; exact hexDigitChar_mem _
    · rw [h]; exact hexDigitChar_mem _
    · exact ih h

lemma hexBytes_no_colon (bs : List Nat) : ∀ c ∈ hexBytes bs, c ≠ ':' := by
  intro c hc heq
  have hmem := mem_hexBytes bs c hc
  rw [heq] at hmem
  revert hmem
  decide

lemma hexBytes_length (bs : List Nat) : (hexBytes bs).length = 2 * bs.length := by
  induction bs with
  | nil => rfl
  | cons b bs ih => simp [hexBytes, ih]; omega

lemma compressRound_length (st : List Nat) (kw : Nat × Nat) :
    (compressRound st kw).length = 8 := rfl

lemma foldl_compressRound_length (l : List (Nat × Nat)) :
    ∀ st : List Nat, st.length = 8 → (l.foldl compressRound st).length = 8 := by
  induction l with
  | nil => intro st h; simpa using h
  | cons x xs ih =>
    intro st h
    rw [List.foldl_cons]
    exact ih _ (compressRound_length st x)

lemma compressChunk_length (st chunk : List Nat) (h : st.length = 8) :
    (compressChunk st chunk).length = 8 := by
  have hfin := foldl_compressRound_length
    (sha256K.zip (scheduleExtend 48 (bytesToWords chunk))) st h
  simp [compressChunk, List.length_zip, h, hfin]

lemma foldl_compressChunk_length (l : List (List Nat)) :
    ∀ st : List Nat, st.length = 8 → (l.foldl compressChunk st).length = 8 := by
  induction l with
  | nil => intro st h; simpa using h
  | cons x xs ih =>
    intro st h
    rw [List.foldl_cons]
    exact ih _ (compressChunk_length st x h)

lemma flatMap_wordBytes_length (l : List Nat) :
    (l.flatMap wordBytes).length = 4 * l.length := by
  induction l with
  | nil => rfl
  | cons x xs ih => simp [wordBytes, ih]; omega

lemma sha256_length (msg : List Nat) : (sha256 msg).length = 32 := by
  have h8 : ((splitChunks (padMessage msg)).foldl compressChunk sha256H0).length = 8 :=
    foldl_compressChunk_length _ _ (by rfl)
  show (((splitChunks (padMessage msg)).foldl compressChunk sha256H0).flatMap wordBytes).length = 32
  rw [flatMap_wordBytes_length, h8]

lemma sha256Hex_length (s : List Char) : (sha256Hex s).length = 64 := by
  simp [sha256Hex, hexBytes_length, sha256_length]

lemma sha256Hex_no_colon (s : List Char) : ∀ c ∈ sha256Hex s, c ≠ ':' := by
  intro c hc
  exact hexBytes_no_colon _ c hc

lemma sha256Hex_ne_nil (s : List Char) : sha256Hex s ≠ [] := by
  intro h
  have := sha256Hex_length s
  rw [h] at this
  simp at this

lemma strEq_self (s : List Char) : strEq s s = true := by
  induction s with
  | nil => rfl
  | cons c rest ih => simp [strEq, ih]

lemma strEqSteps_self (s : List Char) : strEqSteps s s = s.length := by
  induction s with
  | nil => rfl
  | cons c rest ih => simp [strEqSteps, ih]; omega

/-- Claim C1: for every token string and every 16-byte salt the random
source supplies to the hashing step, `verifyEditToken t (hashEditToken t)`
returns `true`: the stored string `"<salt-hex>:<hash-hex>"` re-splits on
`':'` into the salt and the digest, and the recomputed
`SHA-256(salt ++ token)` hex equals the stored hash. -/
theorem c1_verify_roundtrip (saltBytes : List Nat) (t : List Char)
    (hsalt : saltBytes.length = 16) :
    verifyEditToken t (hashEditToken saltBytes t) = true := by
  have hsne : hexBytes saltBytes ≠ [] := by
    cases saltBytes with
    | nil => simp at hsalt
    | cons b bs => simp [hexBytes]
  have hscf : ∀ c ∈ hexBytes saltBytes, c ≠ ':' := hexBytes_no_colon _
  have hdcf : ∀ c ∈ sha256Hex (hexBytes saltBytes ++ t), c ≠ ':' :=
    sha256Hex_no_colon _
  have hdne : sha256Hex (hexBytes saltBytes ++ t) ≠ [] := sha256Hex_ne_nil _
  rw [hashEditToken, verifyEditToken]
  simp only [splitColon_append _ _ hscf, splitColon_eq_single _ hdcf]
  simp [List.isEmpty_iff, hsne, hdne, strEq_self]

/-- Concrete instance of C1 at a 16-byte salt and a sample token. -/
theorem c1_verify_roundtrip_witness :
    ([0, 1, 2, 3, 4, 5, 6, 7, 8, 9, 10, 11, 12, 13, 14, 15] : List Nat).length = 16 ∧
    verifyEditToken "token-abc".toList
      (hashEditToken [0, 1, 2, 3, 4, 5, 6, 7, 8, 9, 10, 11, 12, 13, 14, 15]
        "token-abc".toList) = true :=
  ⟨by decide, c1_verify_roundtrip _ _ (by decide)⟩

/-- Claim C3 (refuted): `verifyEditToken` compares the recomputed digest
with the stored hash by `===` — a short-circuiting comparison, not a
constant-time one.  Under the comparison-count cost model `strEqSteps`,
a stored hash that matches the digest everywhere costs 64 comparisons,
while a stored hash that differs at the very first byte costs one: the
running time depends on the position of the first differing byte. -/
theorem c3_comparison_position_dependent (saltBytes : List Nat)
    (t hvTail : List Char) (hsalt : saltBytes.length = 16) :
    verifyEditTokenSteps t (hashEditToken saltBytes t) = 64 ∧
    verifyEditTokenSteps t (hexBytes saltBytes ++ ':' :: 'g' :: hvTail) = 1 := by
  have hsne : hexBytes saltBytes ≠ [] := by
    cases saltBytes with
    | nil => simp at hsalt
    | cons b bs => simp [hexBytes]
  have hscf : ∀ c ∈ hexBytes saltBytes, c ≠ ':' := hexBytes_no_colon _
  constructor
  · have hdcf : ∀ c ∈ sha256Hex (hexBytes saltBytes ++ t), c ≠ ':' :=
      sha256Hex_no_colon _
    have hdne : sha256Hex (hexBytes saltBytes ++ t) ≠ [] := sha256Hex_ne_nil _
    rw [hashEditToken, verifyEditTokenSteps]
    simp only [splitColon_append _ _ hscf, splitColon_eq_single _ hdcf]
    simp [List.isEmpty_iff, hsne, hdne, strEqSteps_self, sha256Hex_length]
  · rw [verifyEditTokenSteps]
    simp only [splitColon_append _ _ hscf]
    cases hsp : splitColon hvTail with
    | nil => exact absurd hsp (splitColon_ne_nil hvTail)
    | cons p ps =>
      have hg : ('g' : Char) ≠ ':' := by decide
      have hsplit : splitColon ('g' :: hvTail) = ('g' :: p) :: ps := by
        simp [splitColon, hg, hsp]
      rw [hsplit]
      cases hd : sha256Hex (hexBytes saltBytes ++ t) with
      | nil => exact absurd hd (sha256Hex_ne_nil _)
      | cons d ds =>
        have hdg : d ≠ 'g' := by
          intro heq
          have hmem : d ∈ sha256Hex (hexBytes saltBytes ++ t) := by
            rw [hd]; exact List.mem_cons_self _ _
          have := mem_hexBytes _ _ hmem
          rw [heq] at this
          revert this
          decide
        simp [List.isEmpty_iff, hsne, hd, strEqSteps, hdg]

/-- Concrete instance of C3 at a 16-byte salt: 64 comparisons for the
matching hash, one for a first-byte mismatch. -/
theorem c3_comparison_position_dependent_witness :
    verifyEditTokenSteps "tok".toList
      (hashEditToken [1, 2, 3, 4, 5, 6, 7, 8, 9, 10, 11, 12, 13, 14, 15, 16]
        "tok".toList) = 64 ∧
    verifyEditTokenSteps "tok".toList
      (hexBytes [1, 2, 3, 4, 5, 6, 7, 8, 9, 10, 11, 12, 13, 14, 15, 16] ++
        ':' :: 'g' :: []) = 1 :=
  c3_comparison_position_dependent _ _ _ (by decide)

/-- Claim C4 (refuted): the creation handler draws exactly one slug
candidate — its outcome depends only on the first nine draws of the
random source — and a collision with an issued slug ends in the generic
internal error of the handler's catch-all, never in a retry or a
`SlugAllocationError` (no such error exists in the code). -/
theorem c4_slug_no_retry_no_allocation_error :
    (∀ (rand rand' : Nat → Nat) (existing : List (List Char)),
      (∀ i, i < 9 → rand i = rand' i) →
      createQRSlug rand existing = createQRSlug rand' existing) ∧
    createQRSlug (fun _ => 0) [List.replicate 9 'A'] = .internalError := by
  constructor
  · intro rand rand' existing h
    have hs : generateSlug rand = generateSlug rand' := by
      unfold generateSlug
      apply List.map_congr_left
      intro i hi
      rw [h i (List.mem_range.mp hi)]
    unfold createQRSlug
    rw [hs]
  · decide

/-- Concrete instance of C4's single-draw property: two sources agreeing
on the first nine draws allocate the same slug. -/
theorem c4_slug_no_retry_no_allocation_error_witness :
    createQRSlug (fun _ => 0) [] = createQRSlug (fun i => if i < 9 then 0 else 7) [] :=
  c4_slug_no_retry_no_allocation_error.1 _ _ _ (fun i hi => by simp [hi])

/-- Claim C9: the export dispatch returns exactly the content type
matching each recognized format, and any other format string yields the
400 client-error response rather than a crash. -/
theorem c9_export_content_types :
    exportDispatch "svg".toList = .ok "image/svg+xml".toList ∧
    exportDispatch "png".toList = .ok "image/png".toList ∧
    exportDispatch "jpeg".toList = .ok "image/jpeg".toList ∧
    ∀ f : List Char, f ≠ "svg".toList → f ≠ "png".toList → f ≠ "jpeg".toList →
      exportDispatch f =
        .clientError 400 "Invalid format. Use png, jpeg, or svg.".toList := by
  refine ⟨rfl, rfl, rfl, ?_⟩
  intro f h1 h2 h3
  unfold exportDispatch
  rw [if_neg h1, if_neg h2, if_neg h3]

/-- Concrete instance of C9 at the unknown format `gif`. -/
theorem c9_export_content_types_witness :
    exportDispatch "gif".toList =
      .clientError 400 "Invalid format. Use png, jpeg, or svg.".toList :=
  c9_export_content_types.2.2.2 _ (by decide) (by decide) (by decide)

/-- Claim C2 (refuted): `applyRoundedCorners` rewrites every
`rect width="…" height="…"` in the markup, with no region information at
all; on markup containing a finder-pattern rectangle (the 7×7-module
corner square, here at module size 10) the finder rectangle itself gains
`rx="2" ry="2"`, i.e. its exact geometric shape is not kept. -/
theorem c2_rounding_reshapes_finder_rect :
    containsSub "rx=".toList
      "<svg><rect width=\"70\" height=\"70\" x=\"0\" y=\"0\" fill=\"#000000\"/></svg>".toList
      = false ∧
    applyRoundedCorners
      "<svg><rect width=\"70\" height=\"70\" x=\"0\" y=\"0\" fill=\"#000000\"/></svg>".toList
      = "<svg><rect width=\"70\" height=\"70\" rx=\"2\" ry=\"2\" x=\"0\" y=\"0\" fill=\"#000000\"/></svg>".toList := by
  constructor
  · decide
  · decide

/-- Claim C6 (refuted): the composite plan of `compositeLogo` is a single
layer holding the fetched logo; no solid-background bezel layer is ever
painted behind it, for any size and logo scale. -/
theorem c6_no_bezel_layer (size : Nat) (ls : Option ℚ) :
    (compositeLogoLayers size ls).map (fun l => l.input) = [LayerInput.logoImage] :=
  rfl

/-- Claim C7: for sizes in [128, 4096] and logo scales in [0.10, 0.25],
the logo target square has edge `⌊size * logoScale⌋`, the resize target is
that square, and the top-left corner sits at
`top = left = ⌊(size - edge) / 2⌋`; at size 512 and scale 0.2 this is an
edge of 102 placed at (205, 205). -/
theorem c7_logo_geometry :
    (∀ (size : Nat) (ls : ℚ), 128 ≤ size → size ≤ 4096 →
      1 / 10 ≤ ls → ls ≤ 1 / 4 →
      logoSizeOf size (some ls) = ⌊(size : ℚ) * ls⌋ ∧
      logoTopOf size (some ls) = ⌊((size : ℚ) - (⌊(size : ℚ) * ls⌋ : ℚ)) / 2⌋ ∧
      logoLeftOf size (some ls) = logoTopOf size (some ls) ∧
      fetchLogoResizeTarget (logoSizeOf size (some ls)) =
        (⌊(size : ℚ) * ls⌋, ⌊(size : ℚ) * ls⌋)) ∧
    logoSizeOf 512 (some (1 / 5)) = 102 ∧
    logoTopOf 512 (some (1 / 5)) = 205 ∧
    logoLeftOf 512 (some (1 / 5)) = 205 := by
  have e1 : logoSizeOf 512 (some (1 / 5)) = 102 := by
    rw [logoSizeOf,
      show logoScaleEffective (some (1 / 5)) = 1 / 5 by norm_num [logoScaleEffective]]
    rw [Int.floor_eq_iff]
    norm_num
  have e2 : logoTopOf 512 (some (1 / 5)) = 205 := by
    rw [logoTopOf, e1, Int.floor_eq_iff]
    norm_num
  have e3 : logoLeftOf 512 (some (1 / 5)) = 205 := by
    rw [logoLeftOf, e1, Int.floor_eq_iff]
    norm_num
  refine ⟨?_, e1, e2, e3⟩
  intro size ls _ _ hlo _
  have hne : ls ≠ 0 := by
    intro h
    rw [h] at hlo
    norm_num at hlo
  have heff : logoScaleEffective (some ls) = ls := by
    simp [logoScaleEffective, hne]
  refine ⟨by simp [logoSizeOf, heff], by simp [logoTopOf, logoSizeOf, heff], rfl, ?_⟩
  simp [fetchLogoResizeTarget, logoSizeOf, heff]

/-- Concrete instance of C7 at size 512, scale 0.2. -/
theorem c7_logo_geometry_witness :
    logoSizeOf 512 (some (1 / 5)) = ⌊(512 : ℚ) * (1 / 5)⌋ ∧
    logoTopOf 512 (some (1 / 5)) =
      ⌊((512 : ℚ) - (⌊(512 : ℚ) * (1 / 5)⌋ : ℚ)) / 2⌋ :=
  ⟨(c7_logo_geometry.1 512 (1 / 5) (by norm_num) (by norm_num) (by norm_num)
      (by norm_num)).1,
   (c7_logo_geometry.1 512 (1 / 5) (by norm_num) (by norm_num) (by norm_num)
      (by norm_num)).2.1⟩

lemma replaceScan_id (pat rep : List Char) :
    ∀ (fuel : Nat) (s : List Char), s.length ≤ fuel →
      containsSub pat s = false → replaceScan pat rep fuel s = s := by
  intro fuel
  induction fuel with
  | zero => intro s _ _; rfl
  | succ n ih =>
    intro s hlen hsub
    cases s with
    | nil => rfl
    | cons c rest =>
      rw [containsSub] at hsub
      simp only [Bool.or_eq_false_iff] at hsub
      obtain ⟨h1, h2⟩ := hsub
      have hm : matchLit pat (c :: rest) = none := by
        cases h : matchLit pat (c :: rest) with
        | none => rfl
        | some v => rw [h] at h1; simp at h1
      simp only [replaceScan, hm]
      have hlen2 : rest.length ≤ n := by
        simp only [List.length_cons] at hlen
        omega
      rw [ih rest hlen2 h2]

lemma replaceAll_id (pat rep s : List Char) (h : containsSub pat s = false) :
    replaceAll pat rep s = s :=
  replaceScan_id pat rep s.length s le_rfl h

/-- Claim C5 (amended): `applyGradient` injects the gradient definition
and rewrites exactly the literal `fill="#000000"` / `fill='#000000'`
occurrences to gradient references.  When the markup (after the
definition is injected) contains no literal black fill — in particular
whenever a non-black solid `color` was configured — no module is
redirected to the gradient at all; a black fill does get rewritten to
`url(#qrGradient)`. -/
theorem c5_gradient_rewrites_exactly_black :
    (∀ (g : Gradient) (svg : List Char),
      containsSub fillBlackDq (injectDefs g svg) = false →
      containsSub fillBlackSq (injectDefs g svg) = false →
      applyGradient g svg = injectDefs g svg) ∧
    containsSub urlFillDq
      (applyGradient ⟨"#111111".toList, "#222222".toList⟩
        "<svg><rect width=\"10\" height=\"10\" fill=\"#000000\"/></svg>".toList)
      = true := by
  constructor
  · intro g svg h1 h2
    rw [applyGradient, replaceAll_id _ _ _ h1, replaceAll_id _ _ _ h2]
  · decide

/-- Concrete instance of C5's amended claim: with a red dark color the
gradient pass only injects the definition and leaves every fill alone. -/
theorem c5_gradient_rewrites_exactly_black_witness :
    applyGradient ⟨"#111111".toList, "#222222".toList⟩
        "<svg><rect width=\"10\" height=\"10\" fill=\"#FF0000\"/></svg>".toList
      = injectDefs ⟨"#111111".toList, "#222222".toList⟩
        "<svg><rect width=\"10\" height=\"10\" fill=\"#FF0000\"/></svg>".toList :=
  c5_gradient_rewrites_exactly_black.1 _ _ (by decide) (by decide)

/-- Counterexample to C5 as stated: with `gradient` set and the solid
color `#FF0000`, the dark module keeps its red fill and references no
gradient — dark modules do not reference the gradient "regardless of
which solid color was configured". -/
theorem c5_nonblack_dark_module_no_gradient_ref :
    containsSub "fill=\"#FF0000\"".toList
      (applyGradient ⟨"#111111".toList, "#222222".toList⟩
        "<svg><rect width=\"10\" height=\"10\" fill=\"#FF0000\"/></svg>".toList)
      = true ∧
    containsSub "url(#qrGradient)".toList
      (applyGradient ⟨"#111111".toList, "#222222".toList⟩
        "<svg><rect width=\"10\" height=\"10\" fill=\"#FF0000\"/></svg>".toList)
      = false := by
  constructor
  · decide
  · decide

/-! ### Contrast lemmas -/

lemma rgb_isSome_eq (s : List Char) : (rgb s).isSome = matchesHexColor s := by
  rw [rgb, matchesHexColor]
  generalize stripHash s = t
  rcases t with _ | ⟨c1, _ | ⟨c2, _ | ⟨c3, _ | ⟨c4, _ | ⟨c5, _ | ⟨c6, _ | ⟨c7, t⟩⟩⟩⟩⟩⟩⟩
  · simp
  · simp
  · simp
  · simp
  · simp
  · simp
  · cases h1 : isHexDig c1 <;> cases h2 : isHexDig c2 <;> cases h3 : isHexDig c3 <;>
      cases h4 : isHexDig c4 <;> cases h5 : isHexDig c5 <;> cases h6 : isHexDig c6 <;>
      simp [h1, h2, h3, h4, h5, h6]
  · simp

lemma rgb_none_of_not_matches (s : List Char) (h : matchesHexColor s = false) :
    rgb s = none := by
  have hs := rgb_isSome_eq s
  rw [h] at hs
  exact Option.not_isSome_iff_eq_none.mp (by simp [hs])

lemma validateContrast_eval (c b : List Char) (p q : Nat × Nat × Nat)
    (h1 : rgb c = some p) (h2 : rgb b = some q) :
    validateContrast c b =
      ⟨4.5 ≤ (max (luminance p) (luminance q) + 0.05) /
        (min (luminance p) (luminance q) + 0.05),
       some ((max (luminance p) (luminance q) + 0.05) /
        (min (luminance p) (luminance q) + 0.05))⟩ := by
  rw [validateContrast, h1, h2]

lemma luminance_gray (v : Nat) : luminance (v, v, v) = srgbChannel v := by
  rw [luminance]
  show 0.2126 * srgbChannel v + 0.7152 * srgbChannel v + 0.0722 * srgbChannel v
    = srgbChannel v
  ring_nf

lemma srgbChannel_zero : srgbChannel 0 = 0 := by
  unfold srgbChannel
  norm_num

lemma srgbChannel_255 : srgbChannel 255 = 1 := by
  unfold srgbChannel
  rw [if_neg (by push_cast; norm_num)]
  have h1 : (((255 : ℕ) : ℝ) / 255 + 0.055) / 1.055 = 1 := by push_cast; norm_num
  rw [h1, Real.one_rpow]

lemma srgbChannel_119 :
    srgbChannel 119 = (((119 : ℝ) / 255 + 0.055) / 1.055) ^ (2.4 : ℝ) := by
  unfold srgbChannel
  rw [if_neg (by push_cast; norm_num)]
  norm_num

lemma srgbChannel_136 :
    srgbChannel 136 = (((136 : ℝ) / 255 + 0.055) / 1.055) ^ (2.4 : ℝ) := by
  unfold srgbChannel
  rw [if_neg (by push_cast; norm_num)]
  norm_num

lemma ratio_bw :
    (max (luminance (0, 0, 0)) (luminance (255, 255, 255)) + 0.05) /
      (min (luminance (0, 0, 0)) (luminance (255, 255, 255)) + 0.05) = 21 := by
  rw [luminance_gray, luminance_gray, srgbChannel_zero, srgbChannel_255]
  rw [max_eq_right (by norm_num : (0:ℝ) ≤ 1), min_eq_left (by norm_num : (0:ℝ) ≤ 1)]
  norm_num

lemma ratio_77_88_lt :
    (max (luminance (119, 119, 119)) (luminance (136, 136, 136)) + 0.05) /
      (min (luminance (119, 119, 119)) (luminance (136, 136, 136)) + 0.05) < 4.5 := by
  rw [luminance_gray, luminance_gray, srgbChannel_119, srgbChannel_136]
  set x1 : ℝ := ((119 : ℝ) / 255 + 0.055) / 1.055 with hx1
  set x2 : ℝ := ((136 : ℝ) / 255 + 0.055) / 1.055 with hx2
  have hx1pos : (0 : ℝ) < x1 := by rw [hx1]; norm_num
  have hx1le : x1 ≤ 1 := by rw [hx1]; norm_num
  have hx2pos : (0 : ℝ) < x2 := by rw [hx2]; norm_num
  have hx2le : x2 ≤ 1 := by rw [hx2]; norm_num
  have hx12 : x1 ≤ x2 := by rw [hx1, hx2]; norm_num
  have hs12 : x1 ^ (2.4 : ℝ) ≤ x2 ^ (2.4 : ℝ) :=
    Real.rpow_le_rpow (le_of_lt hx1pos) hx12 (by norm_num)
  rw [max_eq_right hs12, min_eq_left hs12]
  have hub : x2 ^ (2.4 : ℝ) ≤ x2 := by
    have h := Real.rpow_le_rpow_of_exponent_ge hx2pos hx2le
      (by norm_num : (1 : ℝ) ≤ 2.4)
    rwa [Real.rpow_one] at h
  have hlb : x1 ^ (3 : ℕ) ≤ x1 ^ (2.4 : ℝ) := by
    have h := Real.rpow_le_rpow_of_exponent_ge hx1pos hx1le
      (by norm_num : (2.4 : ℝ) ≤ 3)
    rwa [show ((3 : ℝ)) = ((3 : ℕ) : ℝ) by norm_num, Real.rpow_natCast] at h
  have hden : (0 : ℝ) < x1 ^ (2.4 : ℝ) + 0.05 := by
    have hp : (0 : ℝ) < x1 ^ (2.4 : ℝ) := Real.rpow_pos_of_pos hx1pos _
    linarith
  rw [div_lt_iff₀ hden]
  have key : x2 + 0.05 < 4.5 * (x1 ^ (3 : ℕ) + 0.05) := by
    rw [hx1, hx2]; norm_num
  linarith [hub, hlb, key]

/-- Claim C8: `validateContrast` on black/white returns the exact WCAG
ratio 21 with a valid verdict; on `#777777` vs `#888888` it returns a
ratio below 4.5 with an invalid verdict; and the verdict holds exactly
when the returned ratio is at least 4.5. -/
theorem c8_contrast_values :
    (validateContrast "#000000".toList "#FFFFFF".toList).valid ∧
    (validateContrast "#000000".toList "#FFFFFF".toList).ratioVal = some 21 ∧
    (validateContrast "#777777".toList "#888888".toList).ratioVal.isSome = true ∧
    (validateContrast "#777777".toList "#888888".toList).ratioVal.getD 0 < 4.5 ∧
    ¬ (validateContrast "#777777".toList "#888888".toList).valid ∧
    ∀ (c b : List Char) (x : ℝ), (validateContrast c b).ratioVal = some x →
      ((validateContrast c b).valid ↔ 4.5 ≤ x) := by
  have hb : rgb "#000000".toList = some (0, 0, 0) := by decide
  have hw : rgb "#FFFFFF".toList = some (255, 255, 255) := by decide
  have h7 : rgb "#777777".toList = some (119, 119, 119) := by decide
  have h8 : rgb "#888888".toList = some (136, 136, 136) := by decide
  have e1 := validateContrast_eval _ _ _ _ hb hw
  have e2 := validateContrast_eval _ _ _ _ h7 h8
  refine ⟨?_, ?_, ?_, ?_, ?_, ?_⟩
  · rw [e1, ratio_bw]
    show (4.5 : ℝ) ≤ 21
    norm_num
  · rw [e1, ratio_bw]
  · rw [e2]
    rfl
  · rw [e2]
    exact ratio_77_88_lt
  · rw [e2]
    exact not_le.mpr ratio_77_88_lt
  · intro c b x h
    cases hc : rgb c with
    | none =>
      rw [validateContrast, hc] at h
      simp at h
    | some p =>
      cases hrb : rgb b with
      | none =>
        rw [validateContrast, hc, hrb] at h
        simp at h
      | some q =>
        have e := validateContrast_eval c b p q hc hrb
        rw [e] at h ⊢
        simp only [Option.some.injEq] at h
        rw [h]

/-- Concrete instance of C8's verdict characterization at black/white. -/
theorem c8_contrast_values_witness :
    (validateContrast "#000000".toList "#FFFFFF".toList).valid ↔ (4.5 : ℝ) ≤ 21 :=
  c8_contrast_values.2.2.2.2.2 _ _ 21
    (by rw [validateContrast_eval _ _ (0, 0, 0) (255, 255, 255) (by decide) (by decide),
          ratio_bw])

/-- Claim C10: the `rgb` parse succeeds exactly on an optional `#`
followed by six hex digits, and `validateContrast` on any input outside
that shape returns `{ valid: false }` with no ratio (it is a total
function: it never throws). -/
theorem c10_contrast_rejects_malformed :
    (∀ s : List Char, (rgb s).isSome = matchesHexColor s) ∧
    ∀ c b : List Char, matchesHexColor c = false ∨ matchesHexColor b = false →
      validateContrast c b = ⟨False, none⟩ := by
  refine ⟨rgb_isSome_eq, ?_⟩
  intro c b h
  rcases h with h | h
  · rw [validateContrast, rgb_none_of_not_matches c h]
  · rw [validateContrast, rgb_none_of_not_matches b h]
    cases hrc : rgb c <;> rfl

/-- Concrete instance of C10 at the malformed color `"red"`. -/
theorem c10_contrast_rejects_malformed_witness :
    validateContrast "red".toList "#FFFFFF".toList = ⟨False, none⟩ :=
  c10_contrast_rejects_malformed.2 _ _ (Or.inl (by decide))

/-- Concrete instance of C6 at size 512, scale 0.2. -/
theorem c6_no_bezel_layer_witness :
    (compositeLogoLayers 512 (some (1 / 5))).map (fun l => l.input) =
      [LayerInput.logoImage] :=
  c6_no_bezel_layer 512 (some (1 / 5))
